import Mathlib

/-!
Shallow embedding of the google-github-sync-bot repository.

The repository reconciles membership between a Google Workspace directory,
a GitHub organization and an Atlassian tenant.  External I/O (HTTP calls to
Google, GitHub, Atlassian) is represented by explicit oracle parameters:
a fetched snapshot is passed in as a value, a fallible remote call is a
function returning `Except String _` (the `String` is the thrown error
message), and the current clock value is an explicit `now : Int`
(milliseconds, the JavaScript `Date.now()` value).  `new Date(s).getTime()`
and `new Date(t).toISOString()` are abstracted as oracle functions
`parseTime : String → Int` and `toISO : Int → String`.
-/

set_option maxHeartbeats 1000000

/-- Decidable equality for `Except`, used to evaluate the embedding on
concrete oracle outcomes. -/
instance {ε α : Type} [DecidableEq ε] [DecidableEq α] :
    DecidableEq (Except ε α) := fun a b =>
  match a, b with
  | Except.error e, Except.error f =>
    if h : e = f then isTrue (congrArg Except.error h)
    else isFalse (fun hc => h (by injection hc))
  | Except.error _, Except.ok _ => isFalse (fun hc => Except.noConfusion hc)
  | Except.ok _, Except.error _ => isFalse (fun hc => Except.noConfusion hc)
  | Except.ok x, Except.ok y =>
    if h : x = y then isTrue (congrArg Except.ok h)
    else isFalse (fun hc => h (by injection hc))

/-- JavaScript `String.prototype.toLowerCase`, modelled character by
character over the string's character list. -/
def jsToLowerCase (s : String) : String :=
  String.mk (s.data.map Char.toLower)

/-- Strip leading whitespace characters from a character list. -/
def dropLeadingWhitespace : List Char → List Char
  | [] => []
  | c :: cs => if c.isWhitespace then dropLeadingWhitespace cs else c :: cs

/-- JavaScript `String.prototype.trim`: strip leading and trailing
whitespace. -/
def jsTrim (s : String) : String :=
  String.mk (dropLeadingWhitespace ((dropLeadingWhitespace s.data.reverse).reverse))

/-- `normalizeEmail` from `src/lib/utils.ts`: lowercase then trim. -/
def normalizeEmail (email : String) : String :=
  jsTrim (jsToLowerCase email)

/-- The `customSchemas['3rd-party_tools']` object of a Google Workspace user
(`GoogleUser` in `src/services/google-workspace.ts`).  The two optional
levels (`customSchemas` itself and the `'3rd-party_tools'` key) are collapsed
into one `Option`, which is behaviour-equivalent: every access in the source
goes through optional chaining across both levels. -/
structure ThirdPartyTools where
  githubUsername : Option String
deriving Repr, DecidableEq

/-- `GoogleUser` from `src/services/google-workspace.ts`. -/
structure GoogleUser where
  primaryEmail : Option String
  thirdPartyTools : Option ThirdPartyTools
deriving Repr, DecidableEq

/-- `SyncResultUser` from `src/services/github-sync.ts`. -/
structure SyncResultUser where
  username : String
  email : String
deriving Repr, DecidableEq

/-- `SyncResult` from `src/services/github-sync.ts`. -/
structure SyncResult where
  invited : List SyncResultUser
  removed : List String
  errors : List String
deriving Repr, DecidableEq

/-- The truthy-test-and-lowercase performed in `syncMembers`
(`github-sync.ts` lines 39-46): a user contributes its GitHub username,
lowercased, when `customSchemas` is present and
`customSchemas['3rd-party_tools']?.GitHub_Username` is truthy
(a JavaScript string is truthy iff it is non-empty). -/
def googleUserGithubLower (u : GoogleUser) : Option String :=
  match u.thirdPartyTools with
  | none => none
  | some t =>
    match t.githubUsername with
    | none => none
    | some g => if g == "" then none else some (jsToLowerCase g)

/-- The `workspaceGitHubUsernames` set built in `syncMembers`
(`github-sync.ts` lines 39-46).  The JavaScript `Set` is modelled as a
deduplicated list; membership coincides with membership in the mapped list. -/
def workspaceGitHubUsernames (workspaceUsers : List GoogleUser) : List String :=
  (workspaceUsers.filterMap googleUserGithubLower).dedup

/-- The predicate of the `workspaceUsers.find` call in the invite loop
(`github-sync.ts` lines 55-58): the user's GitHub username, lowercased via
optional chaining, equals `username`. -/
def githubUsernameLowerMatches (username : String) (u : GoogleUser) : Bool :=
  match u.thirdPartyTools with
  | none => false
  | some t =>
    match t.githubUsername with
    | none => false
    | some g => jsToLowerCase g == username

/-- The invite loop of `syncMembers` (`github-sync.ts` lines 49-78), run over
the list of workspace GitHub usernames.  `getByUsername` models
`octokit.rest.users.getByUsername` (returns the numeric user id; a thrown
HTTP error is `Except.error`); a returned id of `0` models a falsy
`user.data.id`.  `createInvitation` models `octokit.rest.orgs.createInvitation`.
Returns the `invited` entries and the error messages pushed by this loop,
in source order. -/
def inviteLoop (workspaceUsers : List GoogleUser)
    (currentMembers pendingInvites : List String)
    (getByUsername : String → Except String Nat)
    (createInvitation : Nat → Except String Unit) :
    List String → List SyncResultUser × List String
  | [] => ([], [])
  | username :: rest =>
    let r := inviteLoop workspaceUsers currentMembers pendingInvites
      getByUsername createInvitation rest
    if !currentMembers.contains username && !pendingInvites.contains username then
      match getByUsername username with
      | Except.error _ => (r.1, ("Error inviting " ++ username) :: r.2)
      | Except.ok ghId =>
        let userEmail := (workspaceUsers.find?
          (fun u => githubUsernameLowerMatches username u)).bind
          (fun u => u.primaryEmail)
        if ghId == 0 || userEmail.getD "" == "" then
          (r.1, ("User " ++ username ++ " with email " ++ userEmail.getD "undefined"
            ++ " not found on GitHub") :: r.2)
        else
          match createInvitation ghId with
          | Except.ok _ =>
            ({ username := username, email := userEmail.getD "" } :: r.1, r.2)
          | Except.error _ => (r.1, ("Error inviting " ++ username) :: r.2)
    else r

/-- The remove loop of `syncMembers` (`github-sync.ts` lines 81-94), run over
the current GitHub members.  `removeMember` models
`octokit.rest.orgs.removeMember`.  Returns the `removed` usernames and the
error messages pushed by this loop, in source order. -/
def removeLoop (ghUsernames removeStopList : List String)
    (removeMember : String → Except String Unit) :
    List String → List String × List String
  | [] => ([], [])
  | member :: rest =>
    let r := removeLoop ghUsernames removeStopList removeMember rest
    if !ghUsernames.contains member && !removeStopList.contains member then
      match removeMember member with
      | Except.ok _ => (member :: r.1, r.2)
      | Except.error _ => (r.1, ("Error removing " ++ member) :: r.2)
    else r

/-- `syncMembers` from `src/services/github-sync.ts` (lines 31-101).  The
snapshots fetched at the top of the method (`getWorkspaceUsers`,
`getGithubMemberUsernames`, `getGithubInvitedUsers`) and the
`removeStopList` field are passed in as values; the GitHub mutation calls
are oracle functions. -/
def syncMembers (workspaceUsers : List GoogleUser)
    (currentMembers pendingInvites removeStopList : List String)
    (getByUsername : String → Except String Nat)
    (createInvitation : Nat → Except String Unit)
    (removeMember : String → Except String Unit) : SyncResult :=
  let ghUsernames := workspaceGitHubUsernames workspaceUsers
  let inv := inviteLoop workspaceUsers currentMembers pendingInvites
    getByUsername createInvitation ghUsernames
  let rem := removeLoop ghUsernames removeStopList removeMember currentMembers
  { invited := inv.1, removed := rem.1, errors := inv.2 ++ rem.2 }

/-- Every invited entry's username comes from the processed username list. -/
theorem mem_inviteLoop_username {workspaceUsers : List GoogleUser}
    {currentMembers pendingInvites : List String}
    {getByUsername : String → Except String Nat}
    {createInvitation : Nat → Except String Unit}
    {l : List String} {u : SyncResultUser}
    (hu : u ∈ (inviteLoop workspaceUsers currentMembers pendingInvites
      getByUsername createInvitation l).1) : u.username ∈ l := by
  induction l with
  | nil => simp [inviteLoop] at hu
  | cons username rest ih =>
    simp only [inviteLoop] at hu
    split at hu
    · split at hu
      · exact List.mem_cons_of_mem _ (ih hu)
      · split at hu
        · exact List.mem_cons_of_mem _ (ih hu)
        · split at hu
          · rcases List.mem_cons.1 hu with h | h
            · subst h; exact List.mem_cons_self _ _
            · exact List.mem_cons_of_mem _ (ih h)
          · exact List.mem_cons_of_mem _ (ih hu)
    · exact List.mem_cons_of_mem _ (ih hu)

/-- Every removed username comes from the processed member list, is not in
the workspace GitHub username list, and is not on the remove stop list. -/
theorem mem_removeLoop {ghUsernames removeStopList : List String}
    {removeMember : String → Except String Unit}
    {l : List String} {m : String}
    (hm : m ∈ (removeLoop ghUsernames removeStopList removeMember l).1) :
    m ∈ l ∧ ghUsernames.contains m = false ∧ removeStopList.contains m = false := by
  induction l with
  | nil => simp [removeLoop] at hm
  | cons member rest ih =>
    simp only [removeLoop] at hm
    split at hm
    · next hcond =>
      split at hm
      · rcases List.mem_cons.1 hm with h | h
        · subst h
          have h2 := hcond
          simp only [Bool.and_eq_true, Bool.not_eq_true'] at h2
          exact ⟨List.mem_cons_self _ _, h2.1, h2.2⟩
        · obtain ⟨h1, h2, h3⟩ := ih h
          exact ⟨List.mem_cons_of_mem _ h1, h2, h3⟩
      · obtain ⟨h1, h2, h3⟩ := ih hm
        exact ⟨List.mem_cons_of_mem _ h1, h2, h3⟩
    · obtain ⟨h1, h2, h3⟩ := ih hm
      exact ⟨List.mem_cons_of_mem _ h1, h2, h3⟩

/-- C1: for every directory snapshot and every target-system
member/pending-invite snapshot, the invite set and the remove set computed
by one `syncMembers` run are disjoint: no username appears both in the
returned result's `invited` list and in its `removed` list. -/
theorem syncMembers_invited_removed_disjoint
    (workspaceUsers : List GoogleUser)
    (currentMembers pendingInvites removeStopList : List String)
    (getByUsername : String → Except String Nat)
    (createInvitation : Nat → Except String Unit)
    (removeMember : String → Except String Unit)
    (u : SyncResultUser) (m : String)
    (hu : u ∈ (syncMembers workspaceUsers currentMembers pendingInvites
      removeStopList getByUsername createInvitation removeMember).invited)
    (hm : m ∈ (syncMembers workspaceUsers currentMembers pendingInvites
      removeStopList getByUsername createInvitation removeMember).removed) :
    u.username ≠ m := by
  intro heq
  have h1 : u.username ∈ workspaceGitHubUsernames workspaceUsers :=
    mem_inviteLoop_username hu
  have h2 := (mem_removeLoop hm).2.1
  rw [heq] at h1
  simp [h1] at h2

/-- Witness for C1 at a concrete input: directory user `Alice` is invited
(as `alice`), non-directory member `carol` is removed, and the two names
differ. -/
theorem syncMembers_invited_removed_disjoint_witness :
    ({ username := "alice", email := "a@x.com" } : SyncResultUser) ∈
      (syncMembers
        [{ primaryEmail := some "a@x.com",
           thirdPartyTools := some { githubUsername := some "Alice" } }]
        ["carol"] [] []
        (fun _ => Except.ok 5) (fun _ => Except.ok ())
        (fun _ => Except.ok ())).invited ∧
    "carol" ∈
      (syncMembers
        [{ primaryEmail := some "a@x.com",
           thirdPartyTools := some { githubUsername := some "Alice" } }]
        ["carol"] [] []
        (fun _ => Except.ok 5) (fun _ => Except.ok ())
        (fun _ => Except.ok ())).removed ∧
    ({ username := "alice", email := "a@x.com" } : SyncResultUser).username ≠ "carol" :=
  ⟨by decide, by decide,
    syncMembers_invited_removed_disjoint
      [{ primaryEmail := some "a@x.com",
         thirdPartyTools := some { githubUsername := some "Alice" } }]
      ["carol"] [] []
      (fun _ => Except.ok 5) (fun _ => Except.ok ()) (fun _ => Except.ok ())
      { username := "alice", email := "a@x.com" } "carol"
      (by decide) (by decide)⟩

/-- C3: a username on the never-remove allowlist (`REMOVE_STOP_LIST`) is
never present in the `removed` list returned by `syncMembers`, regardless
of the directory snapshot. -/
theorem syncMembers_removeStopList_never_removed
    (workspaceUsers : List GoogleUser)
    (currentMembers pendingInvites removeStopList : List String)
    (getByUsername : String → Except String Nat)
    (createInvitation : Nat → Except String Unit)
    (removeMember : String → Except String Unit)
    (m : String) (hm : m ∈ removeStopList) :
    m ∉ (syncMembers workspaceUsers currentMembers pendingInvites
      removeStopList getByUsername createInvitation removeMember).removed := by
  intro hmem
  have h2 := (mem_removeLoop hmem).2.2
  simp [hm] at h2

/-- Witness for C3 at a concrete input: `bob` is a current member absent
from the directory but on the stop list, and is not removed. -/
theorem syncMembers_removeStopList_never_removed_witness :
    "bob" ∈ ["bob"] ∧
    "bob" ∉ (syncMembers [] ["bob", "carol"] [] ["bob"]
      (fun _ => Except.ok 5) (fun _ => Except.ok ())
      (fun _ => Except.ok ())).removed :=
  ⟨by decide,
    syncMembers_removeStopList_never_removed [] ["bob", "carol"] [] ["bob"]
      (fun _ => Except.ok 5) (fun _ => Except.ok ()) (fun _ => Except.ok ())
      "bob" (by decide)⟩

/-- `account_status` of an `AtlassianUser` (`src/services/atlassian-api.ts`). -/
inductive AccountStatus
  | active
  | inactive
  | closed
deriving Repr, DecidableEq

/-- `AtlassianUser` from `src/services/atlassian-api.ts`. -/
structure AtlassianUser where
  account_id : String
  email : String
  account_status : AccountStatus
  name : Option String
  added_to_org : Option String
deriving Repr, DecidableEq

/-- `AtlassianProductAccess` from `src/services/atlassian-sync.ts` (the local
type used by `getMostRecentActivity`). -/
structure AtlassianProductAccess where
  key : String
  last_active_timestamp : String
deriving Repr, DecidableEq

/-- `AtlassianResultUser` from `src/services/atlassian-sync.ts`. -/
structure AtlassianResultUser where
  email : String
  accountId : String
  lastActiveDate : Option String
  inactiveDays : Option Int
deriving Repr, DecidableEq

/-- `AtlassianSyncResult` from `src/services/atlassian-sync.ts`. -/
structure AtlassianSyncResult where
  suspended : List AtlassianResultUser
  errors : List String
deriving Repr, DecidableEq

/-- `AtlassianInactivityResult` from `src/services/atlassian-sync.ts`; the
`suspended` and `deleted` fields are optional in the source type. -/
structure AtlassianInactivityResult where
  suspended : Option (List AtlassianResultUser)
  deleted : Option (List AtlassianResultUser)
  errors : List String
deriving Repr, DecidableEq

/-- The configuration held by `WorkspaceAtlassianSync` after its constructor
ran: the stop list already normalized, the dry-run flag and the grace-period
day count (`src/services/atlassian-sync.ts` lines 75-83). -/
structure SyncConfig where
  suspendStopList : List String
  dryRun : Bool
  gracePeriodDays : Int
deriving Repr, DecidableEq

/-- `WorkspaceAtlassianSync.INACTIVITY_SUSPENSION_DAYS`. -/
def INACTIVITY_SUSPENSION_DAYS : Int := 90

/-- `WorkspaceAtlassianSync.INACTIVITY_DELETION_DAYS`. -/
def INACTIVITY_DELETION_DAYS : Int := 180

/-- `WorkspaceAtlassianSync.CACHE_TTL_MS`: 10 minutes. -/
def CACHE_TTL_MS : Int := 10 * 60 * 1000

/-- `calculateDaysSince` (`atlassian-sync.ts` lines 451-456):
`Math.floor((now - parse(isoDate)) / 86400000)`; `Math.floor` of the real
quotient is floor division `Int.fdiv`. -/
def calculateDaysSince (now : Int) (parseTime : String → Int)
    (isoDate : String) : Int :=
  Int.fdiv (now - parseTime isoDate) (1000 * 60 * 60 * 24)

/-- `isWithinGracePeriod` (`atlassian-sync.ts` lines 89-97): no
`added_to_org` date means the grace period does not apply. -/
def isWithinGracePeriod (cfg : SyncConfig) (now : Int)
    (parseTime : String → Int) (addedToOrg : Option String) : Bool :=
  match addedToOrg with
  | none => false
  | some d => calculateDaysSince now parseTime d ≤ cfg.gracePeriodDays

/-- `getMostRecentActivity` (`atlassian-sync.ts` lines 428-446): keep the
non-empty timestamps (the JavaScript filter `timestamp && timestamp !== ''`),
parse them, take `Math.max` of the millisecond values, and render the result
via `toISOString`. -/
def getMostRecentActivity (parseTime : String → Int) (toISO : Int → String)
    (productAccess : List AtlassianProductAccess) : Option String :=
  if productAccess.isEmpty then none
  else
    let dates := ((productAccess.map (fun p => p.last_active_timestamp)).filter
      (fun t => t != "")).map parseTime
    match dates.max? with
    | none => none
    | some m => some (toISO m)

/-- The `workspaceEmails` set built at the top of `syncSuspensions`,
`check3MonthInactivity` and `check6MonthInactivity`: the normalized
`primaryEmail` (defaulting to `''`) of every workspace user.  The JavaScript
`Set` is modelled as a deduplicated list. -/
def workspaceEmailSet (workspaceUsers : List GoogleUser) : List String :=
  (workspaceUsers.map (fun u => normalizeEmail (u.primaryEmail.getD ""))).dedup

/-- The `usersToSuspend` filter of `syncSuspensions` (`atlassian-sync.ts`
lines 188-211). -/
def usersToSuspend (cfg : SyncConfig) (now : Int) (parseTime : String → Int)
    (workspaceUsers : List GoogleUser) (atlassianUsers : List AtlassianUser) :
    List AtlassianUser :=
  let workspaceEmails := workspaceEmailSet workspaceUsers
  atlassianUsers.filter (fun user =>
    let normalizedEmail := normalizeEmail user.email
    if user.account_status != AccountStatus.active
        || workspaceEmails.contains normalizedEmail then false
    else if cfg.suspendStopList.contains normalizedEmail then false
    else if isWithinGracePeriod cfg now parseTime user.added_to_org then false
    else true)

/-- The suspend loop of `syncSuspensions` (`atlassian-sync.ts` lines
214-233).  `suspendUser` models `AtlassianApiClient.suspendUser` keyed by
account id; its `Except.error` payload is the thrown error's message. -/
def suspendLoop (cfg : SyncConfig) (suspendUser : String → Except String Unit) :
    List AtlassianUser → List AtlassianResultUser × List String
  | [] => ([], [])
  | user :: rest =>
    let r := suspendLoop cfg suspendUser rest
    if cfg.dryRun then
      ({ email := user.email, accountId := user.account_id,
         lastActiveDate := none, inactiveDays := none } :: r.1, r.2)
    else
      match suspendUser user.account_id with
      | Except.ok _ =>
        ({ email := user.email, accountId := user.account_id,
           lastActiveDate := none, inactiveDays := none } :: r.1, r.2)
      | Except.error msg =>
        (r.1, ("Failed to suspend " ++ user.email ++ " (" ++ user.account_id
          ++ "): " ++ msg) :: r.2)

/-- `syncSuspensions` from `src/services/atlassian-sync.ts` (lines 174-240).
The workspace and Atlassian snapshots (obtained through the cache in the
source) are passed in as values. -/
def syncSuspensions (cfg : SyncConfig) (now : Int) (parseTime : String → Int)
    (workspaceUsers : List GoogleUser) (atlassianUsers : List AtlassianUser)
    (suspendUser : String → Except String Unit) : AtlassianSyncResult :=
  let r := suspendLoop cfg suspendUser
    (usersToSuspend cfg now parseTime workspaceUsers atlassianUsers)
  { suspended := r.1, errors := r.2 }

/-- The per-user error message of the inactivity checks (`atlassian-sync.ts`
lines 317-321 and 408-412). -/
def inactivityErrorMsg (user : AtlassianUser) (msg : String) : String :=
  "Failed to check inactivity for " ++ user.email ++ " (" ++ user.account_id
    ++ "): " ++ msg

/-- The per-user loop shared verbatim by `check3MonthInactivity`
(`atlassian-sync.ts` lines 261-324, threshold 90, action `suspendUser`) and
`check6MonthInactivity` (lines 352-415, threshold 180, action `deleteUser`).
`getUserLastActive` models the activity lookup: `Except.error` is a thrown
error, `Except.ok none` a response without `product_access`, `Except.ok
(some l)` a response carrying the list `l`.  The activity lookup and the
action call sit in one `try`/`catch`, so either failure produces the same
per-user error entry.  The 2-second `rateLimit()` delay has no effect on the
returned result and is not modelled. -/
def inactivityLoop (cfg : SyncConfig) (now : Int) (parseTime : String → Int)
    (toISO : Int → String) (workspaceEmails : List String)
    (getUserLastActive : String → Except String (Option (List AtlassianProductAccess)))
    (action : String → Except String Unit) (thresholdDays : Int) :
    List AtlassianUser → List AtlassianResultUser × List String
  | [] => ([], [])
  | user :: rest =>
    let r := inactivityLoop cfg now parseTime toISO workspaceEmails
      getUserLastActive action thresholdDays rest
    let normalizedEmail := normalizeEmail user.email
    if cfg.suspendStopList.contains normalizedEmail then r
    else if workspaceEmails.contains normalizedEmail then r
    else
      match getUserLastActive user.account_id with
      | Except.error msg => (r.1, inactivityErrorMsg user msg :: r.2)
      | Except.ok productAccess =>
        match productAccess with
        | none => r
        | some pa =>
          if pa.isEmpty then r
          else
            match getMostRecentActivity parseTime toISO pa with
            | none => r
            | some mostRecent =>
              let days := calculateDaysSince now parseTime mostRecent
              if days > thresholdDays then
                if cfg.dryRun then
                  ({ email := user.email, accountId := user.account_id,
                     lastActiveDate := some mostRecent,
                     inactiveDays := some days } :: r.1, r.2)
                else
                  match action user.account_id with
                  | Except.ok _ =>
                    ({ email := user.email, accountId := user.account_id,
                       lastActiveDate := some mostRecent,
                       inactiveDays := some days } :: r.1, r.2)
                  | Except.error msg =>
                    (r.1, inactivityErrorMsg user msg :: r.2)
              else r

/-- `check3MonthInactivity` from `src/services/atlassian-sync.ts` (lines
246-331): evaluates active users against the 90-day threshold with the
suspend action. -/
def check3MonthInactivity (cfg : SyncConfig) (now : Int)
    (parseTime : String → Int) (toISO : Int → String)
    (workspaceUsers : List GoogleUser) (atlassianUsers : List AtlassianUser)
    (getUserLastActive : String → Except String (Option (List AtlassianProductAccess)))
    (suspendUser : String → Except String Unit) : AtlassianInactivityResult :=
  let workspaceEmails := workspaceEmailSet workspaceUsers
  let activeUsers := atlassianUsers.filter
    (fun user => user.account_status == AccountStatus.active)
  let r := inactivityLoop cfg now parseTime toISO workspaceEmails
    getUserLastActive suspendUser INACTIVITY_SUSPENSION_DAYS activeUsers
  { suspended := some r.1, deleted := none, errors := r.2 }

/-- `check6MonthInactivity` from `src/services/atlassian-sync.ts` (lines
337-422): evaluates users with `inactive` status against the 180-day
threshold with the delete action. -/
def check6MonthInactivity (cfg : SyncConfig) (now : Int)
    (parseTime : String → Int) (toISO : Int → String)
    (workspaceUsers : List GoogleUser) (atlassianUsers : List AtlassianUser)
    (getUserLastActive : String → Except String (Option (List AtlassianProductAccess)))
    (deleteUser : String → Except String Unit) : AtlassianInactivityResult :=
  let workspaceEmails := workspaceEmailSet workspaceUsers
  let suspendedUsers := atlassianUsers.filter
    (fun user => user.account_status == AccountStatus.inactive)
  let r := inactivityLoop cfg now parseTime toISO workspaceEmails
    getUserLastActive deleteUser INACTIVITY_DELETION_DAYS suspendedUsers
  { suspended := none, deleted := some r.1, errors := r.2 }

/-- A user selected by the `usersToSuspend` filter is in the snapshot and is
not on the stop list. -/
theorem mem_usersToSuspend {cfg : SyncConfig} {now : Int}
    {parseTime : String → Int} {workspaceUsers : List GoogleUser}
    {atlassianUsers : List AtlassianUser} {u : AtlassianUser}
    (h : u ∈ usersToSuspend cfg now parseTime workspaceUsers atlassianUsers) :
    u ∈ atlassianUsers ∧
    cfg.suspendStopList.contains (normalizeEmail u.email) = false := by
  unfold usersToSuspend at h
  obtain ⟨h1, h2⟩ := List.mem_filter.1 h
  refine ⟨h1, ?_⟩
  cases hstop : cfg.suspendStopList.contains (normalizeEmail u.email) with
  | false => rfl
  | true => split at h2 <;> simp_all

/-- A user passing every exclusion check is selected by `usersToSuspend`. -/
theorem mem_usersToSuspend_of {cfg : SyncConfig} {now : Int}
    {parseTime : String → Int} {workspaceUsers : List GoogleUser}
    {atlassianUsers : List AtlassianUser} {u : AtlassianUser}
    (hmem : u ∈ atlassianUsers)
    (hstatus : u.account_status = AccountStatus.active)
    (hws : (workspaceEmailSet workspaceUsers).contains (normalizeEmail u.email) = false)
    (hstop : cfg.suspendStopList.contains (normalizeEmail u.email) = false)
    (hgrace : isWithinGracePeriod cfg now parseTime u.added_to_org = false) :
    u ∈ usersToSuspend cfg now parseTime workspaceUsers atlassianUsers := by
  unfold usersToSuspend
  refine List.mem_filter.2 ⟨hmem, ?_⟩
  have hws2 : normalizeEmail u.email ∉ workspaceEmailSet workspaceUsers := by
    simpa using hws
  have hstop2 : normalizeEmail u.email ∉ cfg.suspendStopList := by
    simpa using hstop
  simp [hstatus, hws2, hstop2, hgrace]

/-- Every entry of the suspend loop's result comes from a processed user. -/
theorem mem_suspendLoop {cfg : SyncConfig}
    {suspendUser : String → Except String Unit}
    {l : List AtlassianUser} {r : AtlassianResultUser}
    (hr : r ∈ (suspendLoop cfg suspendUser l).1) :
    ∃ u ∈ l, r = ⟨u.email, u.account_id, none, none⟩ := by
  induction l with
  | nil => simp [suspendLoop] at hr
  | cons user rest ih =>
    simp only [suspendLoop] at hr
    split at hr
    · rcases List.mem_cons.1 hr with h | h
      · exact ⟨user, List.mem_cons_self _ _, h⟩
      · obtain ⟨u, hu, he⟩ := ih h
        exact ⟨u, List.mem_cons_of_mem _ hu, he⟩
    · split at hr
      · rcases List.mem_cons.1 hr with h | h
        · exact ⟨user, List.mem_cons_self _ _, h⟩
        · obtain ⟨u, hu, he⟩ := ih h
          exact ⟨u, List.mem_cons_of_mem _ hu, he⟩
      · obtain ⟨u, hu, he⟩ := ih hr
        exact ⟨u, List.mem_cons_of_mem _ hu, he⟩

/-- If a processed user's suspend call succeeds (or the run is a dry run),
its entry appears in the suspend loop's result. -/
theorem suspendLoop_mem_of_mem {cfg : SyncConfig}
    {suspendUser : String → Except String Unit}
    {l : List AtlassianUser} {u : AtlassianUser} (hu : u ∈ l)
    (hok : cfg.dryRun = true ∨ suspendUser u.account_id = Except.ok ()) :
    (⟨u.email, u.account_id, none, none⟩ : AtlassianResultUser) ∈
      (suspendLoop cfg suspendUser l).1 := by
  induction l with
  | nil => simp at hu
  | cons user rest ih =>
    rcases List.mem_cons.1 hu with h | h
    · subst h
      simp only [suspendLoop]
      split
      · exact List.mem_cons_self _ _
      · next hdry =>
        rcases hok with hd | hcall
        · simp [hd] at hdry
        · rw [hcall]
          exact List.mem_cons_self _ _
    · have hr := ih h
      simp only [suspendLoop]
      split
      · exact List.mem_cons_of_mem _ hr
      · split
        · exact List.mem_cons_of_mem _ hr
        · exact hr

/-- Sound characterization of the inactivity loop's pushed entries: each one
comes from a processed user that passed the stop-list and workspace checks,
whose activity lookup returned a non-empty product-access list with a valid
most-recent timestamp older than the threshold. -/
theorem mem_inactivityLoop {cfg : SyncConfig} {now : Int}
    {parseTime : String → Int} {toISO : Int → String}
    {workspaceEmails : List String}
    {getUserLastActive : String → Except String (Option (List AtlassianProductAccess))}
    {action : String → Except String Unit} {thresholdDays : Int}
    {l : List AtlassianUser} {r : AtlassianResultUser}
    (hr : r ∈ (inactivityLoop cfg now parseTime toISO workspaceEmails
      getUserLastActive action thresholdDays l).1) :
    ∃ u ∈ l, r.email = u.email ∧ r.accountId = u.account_id ∧
      cfg.suspendStopList.contains (normalizeEmail u.email) = false ∧
      workspaceEmails.contains (normalizeEmail u.email) = false ∧
      ∃ pa, getUserLastActive u.account_id = Except.ok (some pa) ∧ pa ≠ [] ∧
        ∃ mra, getMostRecentActivity parseTime toISO pa = some mra ∧
          r.lastActiveDate = some mra ∧
          r.inactiveDays = some (calculateDaysSince now parseTime mra) ∧
          calculateDaysSince now parseTime mra > thresholdDays := by
  induction l with
  | nil => simp [inactivityLoop] at hr
  | cons user rest ih =>
    simp only [inactivityLoop] at hr
    split at hr
    · obtain ⟨u, hu, rest'⟩ := ih hr
      exact ⟨u, List.mem_cons_of_mem _ hu, rest'⟩
    · next hstop =>
      split at hr
      · obtain ⟨u, hu, rest'⟩ := ih hr
        exact ⟨u, List.mem_cons_of_mem _ hu, rest'⟩
      · next hws =>
        split at hr
        · next msg heqerr =>
          obtain ⟨u, hu, rest'⟩ := ih hr
          exact ⟨u, List.mem_cons_of_mem _ hu, rest'⟩
        · next pa0 heqok =>
          split at hr
          · obtain ⟨u, hu, rest'⟩ := ih hr
            exact ⟨u, List.mem_cons_of_mem _ hu, rest'⟩
          · next pa =>
            split at hr
            · obtain ⟨u, hu, rest'⟩ := ih hr
              exact ⟨u, List.mem_cons_of_mem _ hu, rest'⟩
            · next hne =>
              split at hr
              · next hmra =>
                obtain ⟨u, hu, rest'⟩ := ih hr
                exact ⟨u, List.mem_cons_of_mem _ hu, rest'⟩
              · next mra hmra =>
                split at hr
                · next hdays =>
                  split at hr
                  · rcases List.mem_cons.1 hr with h | h
                    · subst h
                      exact ⟨user, List.mem_cons_self _ _, rfl, rfl,
                        Bool.not_eq_true _ ▸ eq_false_of_ne_true hstop,
                        Bool.not_eq_true _ ▸ eq_false_of_ne_true hws,
                        pa, heqok, by simpa using hne, mra, hmra, rfl, rfl, hdays⟩
                    · obtain ⟨u, hu, rest'⟩ := ih h
                      exact ⟨u, List.mem_cons_of_mem _ hu, rest'⟩
                  · split at hr
                    · rcases List.mem_cons.1 hr with h | h
                      · subst h
                        exact ⟨user, List.mem_cons_self _ _, rfl, rfl,
                          Bool.not_eq_true _ ▸ eq_false_of_ne_true hstop,
                          Bool.not_eq_true _ ▸ eq_false_of_ne_true hws,
                          pa, heqok, by simpa using hne, mra, hmra, rfl, rfl, hdays⟩
                      · obtain ⟨u, hu, rest'⟩ := ih h
                        exact ⟨u, List.mem_cons_of_mem _ hu, rest'⟩
                    · obtain ⟨u, hu, rest'⟩ := ih hr
                      exact ⟨u, List.mem_cons_of_mem _ hu, rest'⟩
                · obtain ⟨u, hu, rest'⟩ := ih hr
                  exact ⟨u, List.mem_cons_of_mem _ hu, rest'⟩

/-- C2: a user whose normalized email is on the suspend-stop allowlist is
never present in the suspended list returned by `syncSuspensions` or
`check3MonthInactivity`, nor in the deleted list returned by
`check6MonthInactivity`. -/
theorem suspendStopList_never_suspended_or_deleted
    (cfg : SyncConfig) (now : Int) (parseTime : String → Int)
    (toISO : Int → String) (workspaceUsers : List GoogleUser)
    (atlassianUsers : List AtlassianUser)
    (getUserLastActive : String → Except String (Option (List AtlassianProductAccess)))
    (suspendUser deleteUser : String → Except String Unit) :
    (∀ r ∈ (syncSuspensions cfg now parseTime workspaceUsers atlassianUsers
        suspendUser).suspended,
      cfg.suspendStopList.contains (normalizeEmail r.email) = false) ∧
    (∀ s, (check3MonthInactivity cfg now parseTime toISO workspaceUsers
        atlassianUsers getUserLastActive suspendUser).suspended = some s →
      ∀ r ∈ s, cfg.suspendStopList.contains (normalizeEmail r.email) = false) ∧
    (∀ d, (check6MonthInactivity cfg now parseTime toISO workspaceUsers
        atlassianUsers getUserLastActive deleteUser).deleted = some d →
      ∀ r ∈ d, cfg.suspendStopList.contains (normalizeEmail r.email) = false) := by
  refine ⟨?_, ?_, ?_⟩
  · intro r hr
    obtain ⟨u, hu, he⟩ := mem_suspendLoop hr
    subst he
    exact (mem_usersToSuspend hu).2
  · intro s hs r hr
    simp only [check3MonthInactivity] at hs
    injection hs with hs'
    subst hs'
    obtain ⟨u, _, he1, _, hstop, _⟩ := mem_inactivityLoop hr
    rw [he1]
    exact hstop
  · intro d hd r hr
    simp only [check6MonthInactivity] at hd
    injection hd with hd'
    subst hd'
    obtain ⟨u, _, he1, _, hstop, _⟩ := mem_inactivityLoop hr
    rw [he1]
    exact hstop

/-- C9: a tenant account whose activity lookup returns no activity records
(absent or empty product-access list) is excluded from the suspended list of
the 90-day check and from the deleted list of the 180-day check, regardless
of its status or presence in the directory. -/
theorem noActivityData_excluded_from_inactivity_checks
    (cfg : SyncConfig) (now : Int) (parseTime : String → Int)
    (toISO : Int → String) (workspaceUsers : List GoogleUser)
    (atlassianUsers : List AtlassianUser)
    (getUserLastActive : String → Except String (Option (List AtlassianProductAccess)))
    (suspendUser deleteUser : String → Except String Unit) (accountId : String)
    (hno : getUserLastActive accountId = Except.ok none ∨
      getUserLastActive accountId = Except.ok (some [])) :
    (∀ s, (check3MonthInactivity cfg now parseTime toISO workspaceUsers
        atlassianUsers getUserLastActive suspendUser).suspended = some s →
      ∀ r ∈ s, r.accountId ≠ accountId) ∧
    (∀ d, (check6MonthInactivity cfg now parseTime toISO workspaceUsers
        atlassianUsers getUserLastActive deleteUser).deleted = some d →
      ∀ r ∈ d, r.accountId ≠ accountId) := by
  constructor
  · intro s hs r hr heq
    simp only [check3MonthInactivity] at hs
    injection hs with hs'
    subst hs'
    obtain ⟨u, _, _, he2, _, _, pa, hgla, hpane, _⟩ := mem_inactivityLoop hr
    have hx : getUserLastActive accountId = Except.ok (some pa) := by
      rw [← heq, he2]; exact hgla
    rcases hno with h | h
    · rw [h] at hx; simp at hx
    · rw [h] at hx
      injection hx with hx'
      injection hx' with hx''
      exact hpane hx''.symm
  · intro d hd r hr heq
    simp only [check6MonthInactivity] at hd
    injection hd with hd'
    subst hd'
    obtain ⟨u, _, _, he2, _, _, pa, hgla, hpane, _⟩ := mem_inactivityLoop hr
    have hx : getUserLastActive accountId = Except.ok (some pa) := by
      rw [← heq, he2]; exact hgla
    rcases hno with h | h
    · rw [h] at hx; simp at hx
    · rw [h] at hx
      injection hx with hx'
      injection hx' with hx''
      exact hpane hx''.symm

/-- C10: an Atlassian user whose `added_to_org` date is absent gets no
grace-period protection (`isWithinGracePeriod` is `false`), so when it is
active, absent from the workspace directory and off the stop list,
`syncSuspensions` includes it in the suspended result (the suspend call
succeeding, or the run being a dry run). -/
theorem noAddedToOrg_not_graced_and_suspended
    (cfg : SyncConfig) (now : Int) (parseTime : String → Int)
    (workspaceUsers : List GoogleUser) (atlassianUsers : List AtlassianUser)
    (suspendUser : String → Except String Unit) (u : AtlassianUser)
    (hmem : u ∈ atlassianUsers)
    (hstatus : u.account_status = AccountStatus.active)
    (hws : (workspaceEmailSet workspaceUsers).contains (normalizeEmail u.email) = false)
    (hstop : cfg.suspendStopList.contains (normalizeEmail u.email) = false)
    (hadded : u.added_to_org = none)
    (hok : cfg.dryRun = true ∨ suspendUser u.account_id = Except.ok ()) :
    isWithinGracePeriod cfg now parseTime u.added_to_org = false ∧
    (⟨u.email, u.account_id, none, none⟩ : AtlassianResultUser) ∈
      (syncSuspensions cfg now parseTime workspaceUsers atlassianUsers
        suspendUser).suspended := by
  have hgrace : isWithinGracePeriod cfg now parseTime u.added_to_org = false := by
    rw [hadded]; rfl
  refine ⟨hgrace, ?_⟩
  have hsel := mem_usersToSuspend_of hmem hstatus hws hstop hgrace
  exact suspendLoop_mem_of_mem hsel hok

/-- The suspend loop is insensitive to the dry-run flag when every suspend
call succeeds. -/
theorem suspendLoop_dryRun_irrelevant (stopList : List String) (g : Int)
    (suspendUser : String → Except String Unit)
    (hok : ∀ aid, suspendUser aid = Except.ok ())
    (l : List AtlassianUser) :
    suspendLoop ⟨stopList, true, g⟩ suspendUser l =
      suspendLoop ⟨stopList, false, g⟩ suspendUser l := by
  induction l with
  | nil => rfl
  | cons user rest ih =>
    simp [suspendLoop, ih, hok user.account_id]

/-- The inactivity loop is insensitive to the dry-run flag when every
action call succeeds. -/
theorem inactivityLoop_dryRun_irrelevant (stopList : List String) (g : Int)
    (now : Int) (parseTime : String → Int) (toISO : Int → String)
    (workspaceEmails : List String)
    (getUserLastActive : String → Except String (Option (List AtlassianProductAccess)))
    (action : String → Except String Unit) (thresholdDays : Int)
    (hok : ∀ aid, action aid = Except.ok ())
    (l : List AtlassianUser) :
    inactivityLoop ⟨stopList, true, g⟩ now parseTime toISO workspaceEmails
        getUserLastActive action thresholdDays l =
      inactivityLoop ⟨stopList, false, g⟩ now parseTime toISO workspaceEmails
        getUserLastActive action thresholdDays l := by
  induction l with
  | nil => rfl
  | cons user rest ih =>
    simp only [inactivityLoop, ih, hok]
    repeat' split
    all_goals rfl

/-- C4 counterexample: with identical snapshots and a failing suspend call,
the dry-run result (one suspended entry, no errors) differs from the live
result (no suspended entries, one error), so dry-run and live runs are not
always identical. -/
theorem syncSuspensions_dryRun_live_differ :
    syncSuspensions ⟨[], true, 7⟩ 0 (fun _ => 0) []
      [⟨"id1", "u@x.com", AccountStatus.active, none, none⟩]
      (fun _ => Except.error "boom") ≠
    syncSuspensions ⟨[], false, 7⟩ 0 (fun _ => 0) []
      [⟨"id1", "u@x.com", AccountStatus.active, none, none⟩]
      (fun _ => Except.error "boom") := by decide

/-- C4 (amended): given identical input snapshots and activity data, and
provided every issued suspend/delete call succeeds, the dry-run and live
runs of `syncSuspensions`, `check3MonthInactivity` and
`check6MonthInactivity` return identical result structures. -/
theorem dryRun_live_results_agree_when_calls_succeed
    (stopList : List String) (g now : Int)
    (parseTime : String → Int) (toISO : Int → String)
    (workspaceUsers : List GoogleUser) (atlassianUsers : List AtlassianUser)
    (getUserLastActive : String → Except String (Option (List AtlassianProductAccess)))
    (suspendUser deleteUser : String → Except String Unit)
    (hsusp : ∀ aid, suspendUser aid = Except.ok ())
    (hdel : ∀ aid, deleteUser aid = Except.ok ()) :
    syncSuspensions ⟨stopList, true, g⟩ now parseTime workspaceUsers
        atlassianUsers suspendUser =
      syncSuspensions ⟨stopList, false, g⟩ now parseTime workspaceUsers
        atlassianUsers suspendUser ∧
    check3MonthInactivity ⟨stopList, true, g⟩ now parseTime toISO
        workspaceUsers atlassianUsers getUserLastActive suspendUser =
      check3MonthInactivity ⟨stopList, false, g⟩ now parseTime toISO
        workspaceUsers atlassianUsers getUserLastActive suspendUser ∧
    check6MonthInactivity ⟨stopList, true, g⟩ now parseTime toISO
        workspaceUsers atlassianUsers getUserLastActive deleteUser =
      check6MonthInactivity ⟨stopList, false, g⟩ now parseTime toISO
        workspaceUsers atlassianUsers getUserLastActive deleteUser := by
  refine ⟨?_, ?_, ?_⟩
  · simp only [syncSuspensions]
    rw [suspendLoop_dryRun_irrelevant stopList g suspendUser hsusp]
    rfl
  · simp only [check3MonthInactivity]
    rw [inactivityLoop_dryRun_irrelevant stopList g now parseTime toISO
      (workspaceEmailSet workspaceUsers) getUserLastActive suspendUser
      INACTIVITY_SUSPENSION_DAYS hsusp]
  · simp only [check6MonthInactivity]
    rw [inactivityLoop_dryRun_irrelevant stopList g now parseTime toISO
      (workspaceEmailSet workspaceUsers) getUserLastActive deleteUser
      INACTIVITY_DELETION_DAYS hdel]

/-- Witness for the amended C4 theorem at a concrete input with succeeding
calls: the three dry-run results equal the three live results. -/
theorem dryRun_live_results_agree_witness :
    syncSuspensions ⟨[], true, 7⟩ 17280000000 (fun _ => 0) []
        [⟨"id1", "a@x.com", AccountStatus.active, none, none⟩]
        (fun _ => Except.ok ()) =
      syncSuspensions ⟨[], false, 7⟩ 17280000000 (fun _ => 0) []
        [⟨"id1", "a@x.com", AccountStatus.active, none, none⟩]
        (fun _ => Except.ok ()) ∧
    check3MonthInactivity ⟨[], true, 7⟩ 17280000000 (fun _ => 0)
        (fun _ => "1970-01-01T00:00:00.000Z") []
        [⟨"id1", "a@x.com", AccountStatus.active, none, none⟩]
        (fun _ => Except.ok (some [⟨"jira", "2020-01-01T00:00:00.000Z"⟩]))
        (fun _ => Except.ok ()) =
      check3MonthInactivity ⟨[], false, 7⟩ 17280000000 (fun _ => 0)
        (fun _ => "1970-01-01T00:00:00.000Z") []
        [⟨"id1", "a@x.com", AccountStatus.active, none, none⟩]
        (fun _ => Except.ok (some [⟨"jira", "2020-01-01T00:00:00.000Z"⟩]))
        (fun _ => Except.ok ()) ∧
    check6MonthInactivity ⟨[], true, 7⟩ 17280000000 (fun _ => 0)
        (fun _ => "1970-01-01T00:00:00.000Z") []
        [⟨"id1", "a@x.com", AccountStatus.active, none, none⟩]
        (fun _ => Except.ok (some [⟨"jira", "2020-01-01T00:00:00.000Z"⟩]))
        (fun _ => Except.ok ()) =
      check6MonthInactivity ⟨[], false, 7⟩ 17280000000 (fun _ => 0)
        (fun _ => "1970-01-01T00:00:00.000Z") []
        [⟨"id1", "a@x.com", AccountStatus.active, none, none⟩]
        (fun _ => Except.ok (some [⟨"jira", "2020-01-01T00:00:00.000Z"⟩]))
        (fun _ => Except.ok ()) :=
  dryRun_live_results_agree_when_calls_succeed [] 7 17280000000 (fun _ => 0)
    (fun _ => "1970-01-01T00:00:00.000Z") []
    [⟨"id1", "a@x.com", AccountStatus.active, none, none⟩]
    (fun _ => Except.ok (some [⟨"jira", "2020-01-01T00:00:00.000Z"⟩]))
    (fun _ => Except.ok ()) (fun _ => Except.ok ())
    (fun _ => rfl) (fun _ => rfl)

/-- Witness for C2 at a concrete input: with stop list `stop@x.com`, the
entries produced by `syncSuspensions` and `check6MonthInactivity` carry
emails whose normalized form is off the stop list. -/
theorem suspendStopList_never_suspended_or_deleted_witness :
    (⟨"a@x.com", "id1", none, none⟩ : AtlassianResultUser) ∈
      (syncSuspensions ⟨["stop@x.com"], true, 7⟩ 17280000000 (fun _ => 0) []
        [⟨"id1", "a@x.com", AccountStatus.active, none, none⟩,
         ⟨"id2", "b@x.com", AccountStatus.inactive, none, none⟩]
        (fun _ => Except.ok ())).suspended ∧
    (["stop@x.com"] : List String).contains (normalizeEmail "a@x.com") = false ∧
    (["stop@x.com"] : List String).contains (normalizeEmail "b@x.com") = false :=
  ⟨by decide,
   (suspendStopList_never_suspended_or_deleted ⟨["stop@x.com"], true, 7⟩
      17280000000 (fun _ => 0) (fun _ => "1970-01-01T00:00:00.000Z") []
      [⟨"id1", "a@x.com", AccountStatus.active, none, none⟩,
       ⟨"id2", "b@x.com", AccountStatus.inactive, none, none⟩]
      (fun _ => Except.ok (some [⟨"jira", "2020-01-01T00:00:00.000Z"⟩]))
      (fun _ => Except.ok ()) (fun _ => Except.ok ())).1
     ⟨"a@x.com", "id1", none, none⟩ (by decide),
   (suspendStopList_never_suspended_or_deleted ⟨["stop@x.com"], true, 7⟩
      17280000000 (fun _ => 0) (fun _ => "1970-01-01T00:00:00.000Z") []
      [⟨"id1", "a@x.com", AccountStatus.active, none, none⟩,
       ⟨"id2", "b@x.com", AccountStatus.inactive, none, none⟩]
      (fun _ => Except.ok (some [⟨"jira", "2020-01-01T00:00:00.000Z"⟩]))
      (fun _ => Except.ok ()) (fun _ => Except.ok ())).2.2
     _ rfl ⟨"b@x.com", "id2", some "1970-01-01T00:00:00.000Z", some 200⟩
     (by decide)⟩

/-- Witness for C9 at a concrete input: account `id9` answers the activity
lookup with no records and is absent from both check results, whose entries
(`id1`, `id2`) differ from it. -/
theorem noActivityData_excluded_witness :
    ((fun aid => if aid == "id9" then Except.ok none
        else Except.ok (some [⟨"jira", "2020-01-01T00:00:00.000Z"⟩]) :
      String → Except String (Option (List AtlassianProductAccess))) "id9" =
      Except.ok none) ∧
    ("id1" : String) ≠ "id9" ∧ ("id2" : String) ≠ "id9" :=
  ⟨by decide,
   (noActivityData_excluded_from_inactivity_checks ⟨[], true, 7⟩
      17280000000 (fun _ => 0) (fun _ => "1970-01-01T00:00:00.000Z") []
      [⟨"id1", "a@x.com", AccountStatus.active, none, none⟩,
       ⟨"id9", "z@x.com", AccountStatus.active, none, none⟩,
       ⟨"id2", "b@x.com", AccountStatus.inactive, none, none⟩]
      (fun aid => if aid == "id9" then Except.ok none
        else Except.ok (some [⟨"jira", "2020-01-01T00:00:00.000Z"⟩]))
      (fun _ => Except.ok ()) (fun _ => Except.ok ()) "id9"
      (Or.inl (by decide))).1
     _ rfl ⟨"a@x.com", "id1", some "1970-01-01T00:00:00.000Z", some 200⟩
     (by decide),
   (noActivityData_excluded_from_inactivity_checks ⟨[], true, 7⟩
      17280000000 (fun _ => 0) (fun _ => "1970-01-01T00:00:00.000Z") []
      [⟨"id1", "a@x.com", AccountStatus.active, none, none⟩,
       ⟨"id9", "z@x.com", AccountStatus.active, none, none⟩,
       ⟨"id2", "b@x.com", AccountStatus.inactive, none, none⟩]
      (fun aid => if aid == "id9" then Except.ok none
        else Except.ok (some [⟨"jira", "2020-01-01T00:00:00.000Z"⟩]))
      (fun _ => Except.ok ()) (fun _ => Except.ok ()) "id9"
      (Or.inl (by decide))).2
     _ rfl ⟨"b@x.com", "id2", some "1970-01-01T00:00:00.000Z", some 200⟩
     (by decide)⟩

/-- Witness for C10 at a concrete input: a just-added user without
`added_to_org` is not grace-period-protected and lands in the suspended
result of a dry run. -/
theorem noAddedToOrg_not_graced_and_suspended_witness :
    isWithinGracePeriod ⟨[], true, 7⟩ 0 (fun _ => 0) none = false ∧
    (⟨"u@x.com", "id1", none, none⟩ : AtlassianResultUser) ∈
      (syncSuspensions ⟨[], true, 7⟩ 0 (fun _ => 0) []
        [⟨"id1", "u@x.com", AccountStatus.active, none, none⟩]
        (fun _ => Except.ok ())).suspended :=
  noAddedToOrg_not_graced_and_suspended ⟨[], true, 7⟩ 0 (fun _ => 0) []
    [⟨"id1", "u@x.com", AccountStatus.active, none, none⟩]
    (fun _ => Except.ok ()) ⟨"id1", "u@x.com", AccountStatus.active, none, none⟩
    (by decide) rfl (by decide) (by decide) rfl (Or.inl rfl)

/-- Whether the pattern list is an initial segment of the text list. -/
def listStartsWith : List Char → List Char → Bool
  | [], _ => true
  | _ :: _, [] => false
  | p :: ps, c :: cs => p == c && listStartsWith ps cs

/-- Whether the pattern list occurs contiguously inside the text list. -/
def listContainsSub (pat : List Char) : List Char → Bool
  | [] => listStartsWith pat []
  | c :: cs => listStartsWith pat (c :: cs) || listContainsSub pat cs

/-- JavaScript `String.prototype.includes`: substring containment. -/
def strIncludes (s pat : String) : Bool :=
  listContainsSub pat.data s.data

/-- The retryable-error classification of `withRetry` (src/unnamed/part_003
lines 332-338): the error message contains one of the designated
substrings. -/
def isRetryableError (errorMsg : String) : Bool :=
  strIncludes errorMsg "429" || strIncludes errorMsg "rate limit" ||
  strIncludes errorMsg "timeout" || strIncludes errorMsg "ECONNRESET" ||
  strIncludes errorMsg "ETIMEDOUT"

/-- `MAX_RETRIES` of `withRetry`. -/
def MAX_RETRIES : Nat := 3

/-- `BASE_DELAY_MS` of `withRetry`: 1 second. -/
def BASE_DELAY_MS : Nat := 1000

/-- The attempt loop of `withRetry` (src/unnamed/part_003 lines 311-355).
`outcomes n` is what the wrapped operation does on its n-th attempt
(0-based).  The second `Nat` argument counts the attempts remaining after
the current one (`MAX_RETRIES - attempt`); at `0` the current attempt is the
last and its error propagates without the retryable check.  Returns the
final result together with the list of backoff delays performed (in
milliseconds, in order). -/
def withRetryAux {α : Type} (outcomes : Nat → Except String α)
    (attempt : Nat) : Nat → Except String α × List Nat
  | 0 => (outcomes attempt, [])
  | remaining + 1 =>
    match outcomes attempt with
    | Except.ok v => (Except.ok v, [])
    | Except.error e =>
      if isRetryableError e then
        let rest := withRetryAux outcomes (attempt + 1) remaining
        (rest.1, BASE_DELAY_MS * 2 ^ attempt :: rest.2)
      else (Except.error e, [])

/-- `withRetry` from src/unnamed/part_003 (lines 311-355): up to
`MAX_RETRIES` retries, 4 attempts total. -/
def withRetry {α : Type} (outcomes : Nat → Except String α) :
    Except String α × List Nat :=
  withRetryAux outcomes 0 MAX_RETRIES

/-- C5: an operation failing with retryable errors on the first 3 attempts
and succeeding on the 4th returns the success result after exactly the
delays 1000 ms, 2000 ms, 4000 ms in order; an operation failing with a
non-retryable error propagates it from the first attempt with zero delays;
an operation failing on all 4 attempts propagates the last error. -/
theorem withRetry_policy {α : Type}
    (f g k : Nat → Except String α)
    (e0 e1 e2 en e0' e1' e2' e3' : String) (v : α)
    (hf0 : f 0 = Except.error e0) (hf1 : f 1 = Except.error e1)
    (hf2 : f 2 = Except.error e2) (hf3 : f 3 = Except.ok v)
    (hr0 : isRetryableError e0 = true) (hr1 : isRetryableError e1 = true)
    (hr2 : isRetryableError e2 = true)
    (hg0 : g 0 = Except.error en) (hn : isRetryableError en = false)
    (hk0 : k 0 = Except.error e0') (hk1 : k 1 = Except.error e1')
    (hk2 : k 2 = Except.error e2') (hk3 : k 3 = Except.error e3')
    (hkr0 : isRetryableError e0' = true) (hkr1 : isRetryableError e1' = true)
    (hkr2 : isRetryableError e2' = true) :
    withRetry f = (Except.ok v, [1000, 2000, 4000]) ∧
    withRetry g = (Except.error en, []) ∧
    withRetry k = (Except.error e3', [1000, 2000, 4000]) := by
  refine ⟨?_, ?_, ?_⟩
  · simp [withRetry, withRetryAux, MAX_RETRIES, BASE_DELAY_MS,
      hf0, hf1, hf2, hf3, hr0, hr1, hr2]
  · simp [withRetry, withRetryAux, MAX_RETRIES, hg0, hn]
  · simp [withRetry, withRetryAux, MAX_RETRIES, BASE_DELAY_MS,
      hk0, hk1, hk2, hk3, hkr0, hkr1, hkr2]

/-- Witness for C5 at concrete operations: three timeouts then success,
a non-retryable 404, and four straight failures. -/
theorem withRetry_policy_witness :
    withRetry (fun n => if n < 3 then Except.error "timeout"
      else Except.ok (42 : Nat)) = (Except.ok 42, [1000, 2000, 4000]) ∧
    withRetry (fun _ => (Except.error "404 not found" : Except String Nat)) =
      (Except.error "404 not found", []) ∧
    withRetry (fun n => (Except.error (if n == 3 then "timeout d" else "timeout") :
      Except String Nat)) = (Except.error "timeout d", [1000, 2000, 4000]) :=
  withRetry_policy
    (fun n => if n < 3 then Except.error "timeout" else Except.ok 42)
    (fun _ => Except.error "404 not found")
    (fun n => Except.error (if n == 3 then "timeout d" else "timeout"))
    "timeout" "timeout" "timeout" "404 not found"
    "timeout" "timeout" "timeout" "timeout d" 42
    (by decide) (by decide) (by decide) (by decide)
    (by decide) (by decide) (by decide)
    rfl (by decide)
    (by decide) (by decide) (by decide) (by decide)
    (by decide) (by decide) (by decide)

/-- One page response of the Atlassian bulk user listing
(src/unnamed/part_003 lines 438-457): HTTP 429, another non-ok status with
its error text, or a successful page carrying the mapped users and the next
cursor. -/
inductive FetchResult
  | rateLimited
  | httpError (status : Nat) (text : String)
  | ok (users : List AtlassianUser) (next : Option String)
deriving Repr, DecidableEq

/-- `MAX_PAGES` of `getOrganizationUsers`. -/
def MAX_PAGES : Nat := 100

/-- The pagination loop of `getOrganizationUsers` (src/unnamed/part_003
lines 405-512).  A request URL is identified by its optional cursor (`none`
is the base URL); `fetch` maps it to the page response.  `seenUrls` holds
the already-fetched URLs, `acc` the users collected so far, and the final
`Nat` the pages still allowed (`MAX_PAGES - pageCount`; exhausting it is the
page-ceiling break).  The `links.next` handling (bare token versus full URL
with a `cursor` query parameter) is abstracted: `fetch` returns the
extracted cursor directly in `FetchResult.ok`. -/
def getOrgUsersLoop (fetch : Option String → FetchResult) :
    List (Option String) → Option String → List AtlassianUser → Nat →
    Except String (List AtlassianUser)
  | _, _, acc, 0 => Except.ok acc
  | seenUrls, cursor, acc, fuel + 1 =>
    if seenUrls.contains cursor then Except.ok acc
    else
      match fetch cursor with
      | FetchResult.rateLimited => Except.ok acc
      | FetchResult.httpError status text =>
        Except.error ("Failed to fetch Atlassian users: " ++ toString status
          ++ " " ++ text)
      | FetchResult.ok users next =>
        match next with
        | none => Except.ok (acc ++ users)
        | some c =>
          getOrgUsersLoop fetch (cursor :: seenUrls) (some c) (acc ++ users) fuel

/-- `getOrganizationUsers` from src/unnamed/part_003 (lines 405-512),
started at the base URL with nothing seen and nothing collected. -/
def getOrganizationUsers (fetch : Option String → FetchResult) :
    Except String (List AtlassianUser) :=
  getOrgUsersLoop fetch [] none [] MAX_PAGES

/-- C6: an HTTP 429 on any page stops pagination immediately and returns the
users collected from the pages fetched so far, as a success and without
retrying: at any reachable loop state a rate-limited page yields `ok acc`,
and a run whose second page is rate-limited returns exactly the first page's
users. -/
theorem getOrganizationUsers_429_partial
    (f g : Option String → FetchResult)
    (seenUrls : List (Option String)) (cursor : Option String)
    (acc : List AtlassianUser) (fuel : Nat)
    (hfuel : 0 < fuel) (hseen : seenUrls.contains cursor = false)
    (h429 : f cursor = FetchResult.rateLimited)
    (us0 : List AtlassianUser) (c1 : String)
    (hg0 : g none = FetchResult.ok us0 (some c1))
    (hg1 : g (some c1) = FetchResult.rateLimited) :
    getOrgUsersLoop f seenUrls cursor acc fuel = Except.ok acc ∧
    getOrganizationUsers g = Except.ok us0 := by
  constructor
  · cases fuel with
    | zero => exact absurd hfuel (by simp)
    | succ n => simp [getOrgUsersLoop, hseen, h429]
  · have step1 : ∀ m : Nat, getOrgUsersLoop g [] none [] (m + 1) =
        getOrgUsersLoop g [none] (some c1) ([] ++ us0) m := by
      intro m
      simp [getOrgUsersLoop, hg0]
    have hseen1 : ([none] : List (Option String)).contains (some c1) = false := by
      simp
    have step2 : ∀ m : Nat, getOrgUsersLoop g [none] (some c1) ([] ++ us0)
        (m + 1) = Except.ok ([] ++ us0) := by
      intro m
      simp [getOrgUsersLoop, hseen1, hg1]
    calc getOrganizationUsers g
        = getOrgUsersLoop g [] none [] (99 + 1) := rfl
      _ = getOrgUsersLoop g [none] (some c1) ([] ++ us0) (98 + 1) := step1 99
      _ = Except.ok ([] ++ us0) := step2 98
      _ = Except.ok us0 := by simp

/-- Witness for C6 at a concrete input: the first page returns one user and
a next cursor, the second page is rate-limited; the call returns the first
page's user as a success, and a loop state hitting 429 returns its
accumulator. -/
theorem getOrganizationUsers_429_partial_witness :
    getOrgUsersLoop (fun _ => FetchResult.rateLimited) [] none
      [⟨"id0", "z@x.com", AccountStatus.active, none, none⟩] 100 =
      Except.ok [⟨"id0", "z@x.com", AccountStatus.active, none, none⟩] ∧
    getOrganizationUsers (fun c => match c with
      | none => FetchResult.ok
          [⟨"id1", "a@x.com", AccountStatus.active, none, none⟩] (some "c1")
      | some _ => FetchResult.rateLimited) =
      Except.ok [⟨"id1", "a@x.com", AccountStatus.active, none, none⟩] :=
  getOrganizationUsers_429_partial
    (fun _ => FetchResult.rateLimited)
    (fun c => match c with
      | none => FetchResult.ok
          [⟨"id1", "a@x.com", AccountStatus.active, none, none⟩] (some "c1")
      | some _ => FetchResult.rateLimited)
    [] none [⟨"id0", "z@x.com", AccountStatus.active, none, none⟩] 100
    (by decide) (by decide) rfl
    [⟨"id1", "a@x.com", AccountStatus.active, none, none⟩] "c1" rfl rfl

/-- `List.max?` over the integers picks exactly the greatest element. -/
theorem intList_max?_eq_some_iff {l : List Int} {a : Int} :
    l.max? = some a ↔ a ∈ l ∧ ∀ b ∈ l, b ≤ a := by
  haveI : Std.Antisymm ((· : Int) ≤ ·) := ⟨fun h1 h2 => le_antisymm h1 h2⟩
  exact List.max?_eq_some_iff (fun x => le_refl x)
    (fun x y => max_choice x y) (fun x y z => max_le_iff)

/-- `List.max?` over the integers is invariant under permutation. -/
theorem intList_max?_perm_eq {l1 l2 : List Int} (h : l1.Perm l2) :
    l1.max? = l2.max? := by
  cases h1 : l1.max? with
  | none =>
    rw [List.max?_eq_none_iff] at h1
    subst h1
    rw [List.max?_eq_none_iff.2 h.symm.eq_nil]
  | some a =>
    have h1' := intList_max?_eq_some_iff.1 h1
    have h2 : l2.max? = some a := intList_max?_eq_some_iff.2
      ⟨h.mem_iff.mp h1'.1, fun b hb => h1'.2 b (h.mem_iff.mpr hb)⟩
    rw [h2]

/-- Membership in the parsed date list considered by
`getMostRecentActivity`: exactly the parses of the non-empty timestamps. -/
theorem mem_activityDates {parseTime : String → Int}
    {l : List AtlassianProductAccess} {x : Int} :
    x ∈ ((l.map (fun p => p.last_active_timestamp)).filter
        (fun t => t != "")).map parseTime ↔
      ∃ p ∈ l, p.last_active_timestamp ≠ "" ∧
        parseTime p.last_active_timestamp = x := by
  simp only [List.mem_map, List.mem_filter, bne_iff_ne, ne_eq]
  constructor
  · rintro ⟨t, ⟨⟨p, hp, rfl⟩, hne⟩, rfl⟩
    exact ⟨p, hp, hne, rfl⟩
  · rintro ⟨p, hp, hne, rfl⟩
    exact ⟨p.last_active_timestamp, ⟨⟨p, hp, rfl⟩, hne⟩, rfl⟩

/-- `getMostRecentActivity` as the mapped maximum of the parsed non-empty
timestamps. -/
theorem getMostRecentActivity_eq_max?_map
    (parseTime : String → Int) (toISO : Int → String)
    (ll : List AtlassianProductAccess) :
    getMostRecentActivity parseTime toISO ll =
      (((ll.map (fun p => p.last_active_timestamp)).filter
        (fun t => t != "")).map parseTime).max?.map toISO := by
  cases ll with
  | nil => rfl
  | cons p ps =>
    simp only [getMostRecentActivity, List.isEmpty_cons, Bool.false_eq_true,
      if_false]
    cases hx : ((((p :: ps).map (fun q => q.last_active_timestamp)).filter
      (fun t => t != "")).map parseTime).max? <;> simp [hx]

/-- C7: `getMostRecentActivity` returns the rendering (`toISOString`) of the
maximum timestamp among the entries carrying a non-empty timestamp; it
returns `none` exactly when the input is empty or no entry carries a
non-empty timestamp; and its result is unchanged under any permutation of
the input entries. -/
theorem getMostRecentActivity_spec
    (parseTime : String → Int) (toISO : Int → String)
    (l l2 : List AtlassianProductAccess) (hperm : l.Perm l2) :
    getMostRecentActivity parseTime toISO l =
      getMostRecentActivity parseTime toISO l2 ∧
    (getMostRecentActivity parseTime toISO l = none ↔
      ∀ p ∈ l, p.last_active_timestamp = "") ∧
    ((∃ p ∈ l, p.last_active_timestamp ≠ "") →
      ∃ m, getMostRecentActivity parseTime toISO l = some (toISO m) ∧
        (∃ p ∈ l, p.last_active_timestamp ≠ "" ∧
          parseTime p.last_active_timestamp = m) ∧
        ∀ p ∈ l, p.last_active_timestamp ≠ "" →
          parseTime p.last_active_timestamp ≤ m) := by
  refine ⟨?_, ?_, ?_⟩
  · rw [getMostRecentActivity_eq_max?_map, getMostRecentActivity_eq_max?_map,
      intList_max?_perm_eq (((hperm.map _).filter _).map _)]
  · rw [getMostRecentActivity_eq_max?_map, Option.map_eq_none',
      List.max?_eq_none_iff]
    constructor
    · intro hnil p hp
      by_contra hne
      have hm : parseTime p.last_active_timestamp ∈
          ((l.map (fun q => q.last_active_timestamp)).filter
            (fun t => t != "")).map parseTime :=
        mem_activityDates.2 ⟨p, hp, hne, rfl⟩
      rw [hnil] at hm
      simp at hm
    · intro hall
      rw [List.eq_nil_iff_forall_not_mem]
      intro x hx
      obtain ⟨p, hp, hne, _⟩ := mem_activityDates.1 hx
      exact hne (hall p hp)
  · intro hex
    obtain ⟨p0, hp0, hne0⟩ := hex
    have hmem0 : parseTime p0.last_active_timestamp ∈
        ((l.map (fun p => p.last_active_timestamp)).filter
          (fun t => t != "")).map parseTime :=
      mem_activityDates.2 ⟨p0, hp0, hne0, rfl⟩
    have hsome := List.isSome_max?_of_mem hmem0
    obtain ⟨m, hm⟩ := Option.isSome_iff_exists.1 hsome
    have hm' := intList_max?_eq_some_iff.1 hm
    refine ⟨m, ?_, mem_activityDates.1 hm'.1, ?_⟩
    · rw [getMostRecentActivity_eq_max?_map, hm]
      rfl
    · intro p hp hne
      exact hm'.2 _ (mem_activityDates.2 ⟨p, hp, hne, rfl⟩)

/-- Witness for C7 at a concrete input: swapping the two product-access
entries (one with an empty timestamp) leaves the result unchanged. -/
theorem getMostRecentActivity_spec_witness :
    ([⟨"jira", "aa"⟩, ⟨"confluence", ""⟩] : List AtlassianProductAccess).Perm
      [⟨"confluence", ""⟩, ⟨"jira", "aa"⟩] ∧
    getMostRecentActivity (fun s => (s.length : Int)) (fun m => toString m)
      [⟨"jira", "aa"⟩, ⟨"confluence", ""⟩] =
    getMostRecentActivity (fun s => (s.length : Int)) (fun m => toString m)
      [⟨"confluence", ""⟩, ⟨"jira", "aa"⟩] :=
  ⟨List.Perm.swap _ _ _,
   (getMostRecentActivity_spec (fun s => (s.length : Int)) (fun m => toString m)
     [⟨"jira", "aa"⟩, ⟨"confluence", ""⟩]
     [⟨"confluence", ""⟩, ⟨"jira", "aa"⟩] (List.Perm.swap _ _ _)).1⟩

/-- The four cache fields of `WorkspaceAtlassianSync`
(`atlassian-sync.ts` lines 69-73); `none` models the `null` initial
values. -/
structure SyncCacheState where
  cachedWorkspaceUsers : Option (List GoogleUser)
  cachedWorkspaceUsersTimestamp : Option Int
  cachedAtlassianUsers : Option (List AtlassianUser)
  cachedAtlassianUsersTimestamp : Option Int
deriving Repr, DecidableEq

/-- `isCacheValid` (`atlassian-sync.ts` lines 116-120): a `null` timestamp
is invalid; otherwise the age `now - timestamp` must be under
`CACHE_TTL_MS`. -/
def isCacheValid (now : Int) (timestamp : Option Int) : Bool :=
  match timestamp with
  | none => false
  | some t => now - t < CACHE_TTL_MS

/-- `clearCache` (`atlassian-sync.ts` lines 103-109). -/
def clearCache (_st : SyncCacheState) : SyncCacheState :=
  { cachedWorkspaceUsers := none, cachedWorkspaceUsersTimestamp := none,
    cachedAtlassianUsers := none, cachedAtlassianUsersTimestamp := none }

/-- `getWorkspaceUsersWithCache` (`atlassian-sync.ts` lines 127-144).
`fetched` is the value a live `getWorkspaceUsers(this.auth)` call would
return.  Returns the users, the updated cache state, and whether a live
fetch was performed (the source's cached branch - no bypass, a non-null
cached value and a valid timestamp - returns without fetching; every other
path fetches once and stores payload and timestamp). -/
def getWorkspaceUsersWithCache (bypassCache : Bool) (now : Int)
    (fetched : List GoogleUser) (st : SyncCacheState) :
    List GoogleUser × SyncCacheState × Bool :=
  match st.cachedWorkspaceUsers with
  | some cached =>
    if !bypassCache && isCacheValid now st.cachedWorkspaceUsersTimestamp then
      (cached, st, false)
    else
      (fetched,
        { st with
            cachedWorkspaceUsers := some fetched,
            cachedWorkspaceUsersTimestamp := some now },
        true)
  | none =>
    (fetched,
      { st with
          cachedWorkspaceUsers := some fetched,
          cachedWorkspaceUsersTimestamp := some now },
      true)

/-- `getAtlassianUsersWithCache` (`atlassian-sync.ts` lines 151-168), the
analogous read of the Atlassian slot; `fetched` is the value a live
`api.getOrganizationUsers()` call would return. -/
def getAtlassianUsersWithCache (bypassCache : Bool) (now : Int)
    (fetched : List AtlassianUser) (st : SyncCacheState) :
    List AtlassianUser × SyncCacheState × Bool :=
  match st.cachedAtlassianUsers with
  | some cached =>
    if !bypassCache && isCacheValid now st.cachedAtlassianUsersTimestamp then
      (cached, st, false)
    else
      (fetched,
        { st with
            cachedAtlassianUsers := some fetched,
            cachedAtlassianUsersTimestamp := some now },
        true)
  | none =>
    (fetched,
      { st with
          cachedAtlassianUsers := some fetched,
          cachedAtlassianUsersTimestamp := some now },
      true)

/-- C8: for each cache slot, a read while a payload is cached and its age is
under the 10-minute TTL returns the cached payload without a live fetch and
leaves the state unchanged; a read when the slot is empty or its age has
reached the TTL performs exactly one live fetch and stores the fetched
payload together with a fresh timestamp.  The final conjuncts pin the TTL
predicate: a missing timestamp is never valid, and a present one is valid
exactly when its age is under `CACHE_TTL_MS` (10 minutes in
milliseconds). -/
theorem cache_read_semantics (now : Int) (st : SyncCacheState)
    (wsFetched : List GoogleUser) (atFetched : List AtlassianUser)
    (cachedWs : List GoogleUser) (cachedAt : List AtlassianUser) :
    (st.cachedWorkspaceUsers = some cachedWs →
      isCacheValid now st.cachedWorkspaceUsersTimestamp = true →
      getWorkspaceUsersWithCache false now wsFetched st =
        (cachedWs, st, false)) ∧
    (st.cachedWorkspaceUsers = none ∨
        isCacheValid now st.cachedWorkspaceUsersTimestamp = false →
      getWorkspaceUsersWithCache false now wsFetched st =
        (wsFetched,
          { st with
              cachedWorkspaceUsers := some wsFetched,
              cachedWorkspaceUsersTimestamp := some now },
          true)) ∧
    (st.cachedAtlassianUsers = some cachedAt →
      isCacheValid now st.cachedAtlassianUsersTimestamp = true →
      getAtlassianUsersWithCache false now atFetched st =
        (cachedAt, st, false)) ∧
    (st.cachedAtlassianUsers = none ∨
        isCacheValid now st.cachedAtlassianUsersTimestamp = false →
      getAtlassianUsersWithCache false now atFetched st =
        (atFetched,
          { st with
              cachedAtlassianUsers := some atFetched,
              cachedAtlassianUsersTimestamp := some now },
          true)) ∧
    isCacheValid now none = false ∧
    (∀ t : Int, isCacheValid now (some t) = true ↔ now - t < 10 * 60 * 1000) := by
  refine ⟨?_, ?_, ?_, ?_, rfl, ?_⟩
  · intro hc hv
    simp [getWorkspaceUsersWithCache, hc, hv]
  · intro h
    rcases h with hc | hv
    · simp [getWorkspaceUsersWithCache, hc]
    · cases hc : st.cachedWorkspaceUsers with
      | none => simp [getWorkspaceUsersWithCache, hc]
      | some cached => simp [getWorkspaceUsersWithCache, hc, hv]
  · intro hc hv
    simp [getAtlassianUsersWithCache, hc, hv]
  · intro h
    rcases h with hc | hv
    · simp [getAtlassianUsersWithCache, hc]
    · cases hc : st.cachedAtlassianUsers with
      | none => simp [getAtlassianUsersWithCache, hc]
      | some cached => simp [getAtlassianUsersWithCache, hc, hv]
  · intro t
    simp [isCacheValid, CACHE_TTL_MS]

/-- Witness for C8 at concrete states: a fresh read (age 1 ms) returns the
cached payload without fetching; a read of an expired slot (age exactly the
TTL) fetches and restamps; the Atlassian slot behaves the same; and the TTL
bound holds at age 599999 ms. -/
theorem cache_read_semantics_witness :
    getWorkspaceUsersWithCache false 600001
      [{ primaryEmail := some "f@x.com", thirdPartyTools := none }]
      ⟨some [], some 600000, none, none⟩ =
      ([], ⟨some [], some 600000, none, none⟩, false) ∧
    getWorkspaceUsersWithCache false 600000
      [{ primaryEmail := some "f@x.com", thirdPartyTools := none }]
      ⟨some [], some 0, none, none⟩ =
      ([{ primaryEmail := some "f@x.com", thirdPartyTools := none }],
        ⟨some [{ primaryEmail := some "f@x.com", thirdPartyTools := none }],
          some 600000, none, none⟩, true) ∧
    getAtlassianUsersWithCache false 0
      [⟨"id1", "a@x.com", AccountStatus.active, none, none⟩]
      ⟨none, none, none, none⟩ =
      ([⟨"id1", "a@x.com", AccountStatus.active, none, none⟩],
        ⟨none, none,
          some [⟨"id1", "a@x.com", AccountStatus.active, none, none⟩],
          some 0⟩, true) ∧
    (isCacheValid 599999 (some 0) = true ↔ (599999 : Int) - 0 < 10 * 60 * 1000) :=
  ⟨(cache_read_semantics 600001 ⟨some [], some 600000, none, none⟩
      [{ primaryEmail := some "f@x.com", thirdPartyTools := none }] [] [] []).1
      rfl (by decide),
   (cache_read_semantics 600000 ⟨some [], some 0, none, none⟩
      [{ primaryEmail := some "f@x.com", thirdPartyTools := none }] [] [] []).2.1
      (Or.inr (by decide)),
   (cache_read_semantics 0 ⟨none, none, none, none⟩ []
      [⟨"id1", "a@x.com", AccountStatus.active, none, none⟩] [] []).2.2.2.1
      (Or.inl rfl),
   (cache_read_semantics 599999 ⟨none, none, none, none⟩ [] [] [] []).2.2.2.2.2 0⟩
